import Mathlib

/-!
Verification of the stateful-input core of filebeat's v2 cursor input
(`filebeat/input/v2/input.go`, packages `v2` and `cursor`, plus
`filebeat/beater/crawler_fips.go`).

The Go code is shallowly embedded: errors are their message strings
(`Option String`, `none` = nil error), the delivery pipeline's private
payloads are an inductive type, and the effect of the acknowledgment
callback is the `Execute` call it performs (index of the entry and the
numeric argument), if any.  Concurrent workers are modelled by the list
of their results together with an explicit shared cancellation state;
the cancel flag is monotone (set, never cleared), so every interleaving
of the workers yields the same final cancellation state as the
sequential fold used here.
-/

namespace Beats

/-- A per-event private payload as seen by the acknowledgment callback in
`newInputACKHandler`: Go `nil`, a non-nil value that is not a `*updateOp`,
or a `*updateOp` (identified by an opaque tag). -/
inductive AckEntry where
  | nilPayload : AckEntry
  | other : AckEntry
  | op : Nat → AckEntry
deriving DecidableEq, Repr

/-- Whether a payload is a `*updateOp` (the type assertion in the loop). -/
def isOp : AckEntry → Bool
  | AckEntry.op _ => true
  | _ => false

/-- The scanning loop of `newInputACKHandler`: walks `private` with index
`i`, counting `*updateOp` entries in `n` and remembering the index of the
most recent one in `last`; `nil` entries and non-`updateOp` entries are
skipped.  Returns the final `(n, last)`. -/
def ackScan : List AckEntry → Nat → Nat → Nat → Nat × Nat
  | [], _, n, last => (n, last)
  | AckEntry.op _ :: rest, i, n, _ => ackScan rest (i + 1) (n + 1) i
  | AckEntry.nilPayload :: rest, i, n, last => ackScan rest (i + 1) n last
  | AckEntry.other :: rest, i, n, last => ackScan rest (i + 1) n last

/-- The acknowledgment callback installed by `newInputACKHandler` via
`acker.EventPrivateReporter`.  `acked` is the number of events confirmed
since the previous callback (one private payload per confirmed event) and
is ignored by the Go code.  The result is the `Execute` call performed:
`none` when the callback is a no-op, `some (last, n)` when it runs
`private[last].(*updateOp).Execute(n)`. -/
def newInputACKHandler (acked : Nat) (priv : List AckEntry) : Option (Nat × Nat) :=
  let scanned := ackScan priv 0 0 0
  if scanned.1 = 0 then none else some (scanned.2, scanned.1)

/-- Count of `*updateOp`-tagged entries in a batch (specification side). -/
def countOps (l : List AckEntry) : Nat := (l.filter isOp).length

/-- Index of the highest-index `*updateOp` entry of a batch, if any
(specification side). -/
def lastOpIdx : List AckEntry → Option Nat
  | [] => none
  | e :: rest =>
    match lastOpIdx rest with
    | some j => some (j + 1)
    | none => if isOp e then some 0 else none

/-- Whether an optional payload is a `*updateOp` entry. -/
def optIsOp : Option AckEntry → Bool
  | some e => isOp e
  | none => false

theorem countOps_cons (e : AckEntry) (l : List AckEntry) :
    countOps (e :: l) = (if isOp e then 1 else 0) + countOps l := by
  unfold countOps
  rw [List.filter_cons]
  cases h : isOp e <;> simp [h, Nat.add_comm]

theorem ackScan_spec (l : List AckEntry) :
    ∀ i n last, ackScan l i n last =
      (n + countOps l, (lastOpIdx l).elim last (fun j => i + j)) := by
  induction l with
  | nil => intro i n last; simp [ackScan, countOps, lastOpIdx]
  | cons e rest ih =>
    intro i n last
    cases e with
    | op o =>
      rw [show ackScan (AckEntry.op o :: rest) i n last
            = ackScan rest (i + 1) (n + 1) i from rfl, ih,
        countOps_cons]
      cases hr : lastOpIdx rest <;>
        simp [lastOpIdx, hr, isOp, Prod.ext_iff] <;> omega
    | nilPayload =>
      rw [show ackScan (AckEntry.nilPayload :: rest) i n last
            = ackScan rest (i + 1) n last from rfl, ih,
        countOps_cons]
      cases hr : lastOpIdx rest <;>
        simp [lastOpIdx, hr, isOp, Prod.ext_iff] <;> omega
    | other =>
      rw [show ackScan (AckEntry.other :: rest) i n last
            = ackScan rest (i + 1) n last from rfl, ih,
        countOps_cons]
      cases hr : lastOpIdx rest <;>
        simp [lastOpIdx, hr, isOp, Prod.ext_iff] <;> omega

theorem countOps_eq_zero_of_lastOpIdx_none (l : List AckEntry)
    (h : lastOpIdx l = none) : countOps l = 0 := by
  induction l with
  | nil => rfl
  | cons e rest ih =>
    simp only [lastOpIdx] at h
    cases hr : lastOpIdx rest with
    | some j => rw [hr] at h; simp at h
    | none =>
      rw [hr] at h
      cases he : isOp e
      · simp [countOps_cons, he, ih hr]
      · simp [he] at h

theorem countOps_ne_zero_of_lastOpIdx_some (l : List AckEntry) :
    ∀ j, lastOpIdx l = some j → countOps l ≠ 0 := by
  induction l with
  | nil => intro j h; simp [lastOpIdx] at h
  | cons e rest ih =>
    intro j h
    rw [countOps_cons]
    simp only [lastOpIdx] at h
    cases hr : lastOpIdx rest with
    | some m =>
      have := ih m hr
      cases isOp e <;> simp <;> omega
    | none =>
      rw [hr] at h
      cases he : isOp e
      · simp [he] at h
      · simp [he]

theorem lastOpIdx_isSome_of_countOps (l : List AckEntry)
    (h : countOps l ≠ 0) : ∃ j, lastOpIdx l = some j := by
  cases hr : lastOpIdx l with
  | some j => exact ⟨j, rfl⟩
  | none => exact absurd (countOps_eq_zero_of_lastOpIdx_none l hr) h

theorem lastOpIdx_points_at_op (l : List AckEntry) :
    ∀ j, lastOpIdx l = some j → optIsOp l[j]? = true := by
  induction l with
  | nil => intro j h; simp [lastOpIdx] at h
  | cons e rest ih =>
    intro j h
    simp only [lastOpIdx] at h
    cases hr : lastOpIdx rest with
    | some k =>
      rw [hr] at h
      simp only [Option.some.injEq] at h
      subst h
      rw [List.getElem?_cons_succ]
      exact ih k hr
    | none =>
      rw [hr] at h
      cases he : isOp e
      · simp [he] at h
      · simp only [he, if_true, Option.some.injEq] at h
        subst h
        simp [optIsOp, he]

theorem lastOpIdx_is_max (l : List AckEntry) :
    ∀ j, lastOpIdx l = some j →
      ∀ k, optIsOp l[k]? = true → k ≤ j := by
  induction l with
  | nil => intro j h; simp [lastOpIdx] at h
  | cons e rest ih =>
    intro j h k hk
    simp only [lastOpIdx] at h
    cases hr : lastOpIdx rest with
    | some m =>
      rw [hr] at h
      simp only [Option.some.injEq] at h
      subst h
      cases k with
      | zero => omega
      | succ k0 =>
        rw [List.getElem?_cons_succ] at hk
        have := ih m hr k0 hk
        omega
    | none =>
      rw [hr] at h
      cases he : isOp e
      · simp [he] at h
      · simp only [he, if_true, Option.some.injEq] at h
        subst h
        cases k with
        | zero => omega
        | succ k0 =>
          exfalso
          rw [List.getElem?_cons_succ] at hk
          have hz : countOps rest = 0 := countOps_eq_zero_of_lastOpIdx_none rest hr
          cases hg : rest[k0]? with
          | none => rw [hg] at hk; simp [optIsOp] at hk
          | some e0 =>
            rw [hg] at hk
            simp only [optIsOp] at hk
            have hmem : e0 ∈ rest :=
              List.get?_mem (by simpa [List.get?_eq_getElem?] using hg)
            have hin : e0 ∈ rest.filter isOp := List.mem_filter.mpr ⟨hmem, hk⟩
            have hpos : 0 < (rest.filter isOp).length :=
              List.length_pos.mpr (List.ne_nil_of_mem hin)
            unfold countOps at hz
            omega

/-- Error message of the panic recovery branch shared by
`managedInput.runSource` and `managedInput.testSource`:
`fmt.Errorf("input panic with: %+v\n%s", v, debug.Stack())`.  `v` is the
recovered panic value rendered by `%+v` and `stack` the stack trace
captured by `debug.Stack()`. -/
def panicMessage (v stack : String) : String :=
  "input panic with: " ++ v ++ "\n" ++ stack

/-- Outcome of one invocation of the source-type `Run` (or `Test`)
function: a normal nil return, a fatal non-nil error, or a panic carrying
the rendered panic value. -/
inductive RunOutcome where
  | ok : RunOutcome
  | err : String → RunOutcome
  | panics : String → RunOutcome
deriving DecidableEq, Repr

/-- Observable result of one `managedInput.runSource` execution: the
returned error and how many times `releaseResource(resource)` and
`client.Close()` ran. -/
structure SourceRunResult where
  retErr : Option String
  releases : Nat
  clientCloses : Nat
deriving DecidableEq, Repr

/-- Model of `managedInput.runSource`.  The worker first connects a
pipeline client (`connect` is the error of `pipeline.ConnectWith`, `none`
on success), then acquires the Resource lock (`lock` is the error of
`inp.manager.lock`), and finally invokes the source-type `Run`
(`outcome`).  Deferred calls mirror the Go `defer` statements: the panic
recovery handler converts a panic into the error `panicMessage v stack`,
`client.Close()` runs once the client exists, and
`releaseResource(resource)` runs once the lock was acquired, on every
exit path. -/
def runSource (stack : String) (connect lock : Option String)
    (outcome : RunOutcome) : SourceRunResult :=
  match connect with
  | some e => { retErr := some e, releases := 0, clientCloses := 0 }
  | none =>
    match lock with
    | some e => { retErr := some e, releases := 0, clientCloses := 1 }
    | none =>
      match outcome with
      | RunOutcome.ok => { retErr := none, releases := 1, clientCloses := 1 }
      | RunOutcome.err e => { retErr := some e, releases := 1, clientCloses := 1 }
      | RunOutcome.panics v =>
          { retErr := some (panicMessage v stack), releases := 1, clientCloses := 1 }

/-- Model of `managedInput.testSource`: runs the source-type `Test`
(`outcome`) under the same deferred panic recovery handler and returns
its error. -/
def testSource (stack : String) (outcome : RunOutcome) : Option String :=
  match outcome with
  | RunOutcome.ok => none
  | RunOutcome.err e => some e
  | RunOutcome.panics v => some (panicMessage v stack)

/-- Model of `unison.MultiErrGroup.Wait`: waits for all spawned
go-routines and collects the non-nil errors they returned, in order. -/
def multiErrGroupWait (results : List (Option String)) : List String :=
  results.filterMap (fun r => r)

/-- Model of the error aggregation tail of `managedInput.Run`
(`fmt.Errorf("input %s failed: %w", ctx.ID, errors.Join(errs...))` when
`grp.Wait()` reported errors, nil otherwise).  `workerErrs` is the list
of results returned by the per-source workers; `errors.Join` renders the
wrapped errors joined by newlines. -/
def managedInput_Run (inputID : String) (workerErrs : List (Option String)) :
    Option String :=
  if (multiErrGroupWait workerErrs).length > 0 then
    some ("input " ++ inputID ++ " failed: "
      ++ String.intercalate "\n" (multiErrGroupWait workerErrs))
  else none

/-- Model of `managedInput.Test`: spawns `testSource` per configured
source through a `unison.MultiErrGroup`, waits for all of them, and
returns `fmt.Errorf("input tests failed: %w", errors.Join(errs...))` when
any validation failed, nil otherwise.  `testErrs` is the list of
per-source `testSource` results. -/
def managedInput_Test (testErrs : List (Option String)) : Option String :=
  if (multiErrGroupWait testErrs).length > 0 then
    some ("input tests failed: "
      ++ String.intercalate "\n" (multiErrGroupWait testErrs))
  else none

/-- Shared cancellation state of one `managedInput.Run` invocation:
whether the input-level `ctx.Cancelation` is cancelled, and whether some
worker called the `cancel` function of the derived child context. -/
structure CancelState where
  parentCancelled : Bool
  cancelCalled : Bool
deriving DecidableEq, Repr

/-- Whether the child `cancelCtx` (shared by all workers as their
`ctx.Cancelation`) reports cancellation: it is cancelled when its parent
is, or when `cancel()` was invoked. -/
def CancelState.cancelled (c : CancelState) : Bool :=
  c.parentCancelled || c.cancelCalled

/-- Model of `context.WithCancel(ctxtool.FromCanceller(ctx.Cancelation))`
at the top of `managedInput.Run`: derives a child cancellation signal
from the input-level one, with `cancel` not yet called. -/
def deriveChildCancel (parentCancelled : Bool) : CancelState :=
  { parentCancelled := parentCancelled, cancelCalled := false }

/-- Body of the worker closure spawned by `managedInput.Run` for one
source, acting on the shared cancellation state: if `runSource` returned
a non-nil error the worker calls `cancel()`; either way it returns the
error to the group.  The cancel flag is monotone, so folding the workers
in any order yields the same final state. -/
def workerStep (c : CancelState) (r : Option String) : CancelState :=
  if r.isSome then { c with cancelCalled := true } else c

/-- Shared cancellation state after all workers of `managedInput.Run`
have run, given the per-worker `runSource` results. -/
def runWorkers (c : CancelState) : List (Option String) → CancelState
  | [] => c
  | r :: rs => runWorkers (workerStep c r) rs

/-- Model of `managedInput.createSourceID`: the ResourceKey of a source,
built from the manager type, the optional user id and the source name
with `fmt.Sprintf`. -/
def createSourceID (managerType userID sourceName : String) : String :=
  if userID ≠ "" then managerType ++ "::" ++ userID ++ "::" ++ sourceName
  else managerType ++ "::" ++ sourceName

/-- Declared FIPS capability of an input: `none` when the type does not
implement the `v2.FIPSAwareInput` interface, `some b` when it does and
`IsFIPSCapable()` returns `b`. -/
abbrev FIPSCapability := Option Bool

/-- Model of `checkFIPSCapability` from `filebeat/beater/crawler_fips.go`:
nil when the runner is not FIPS-aware or reports itself capable, an error
naming the runner otherwise. -/
def checkFIPSCapability (runnerName : String) (cap : FIPSCapability) :
    Option String :=
  match cap with
  | none => none
  | some true => none
  | some false =>
      some ("running a FIPS-capable distribution but input ["
        ++ runnerName ++ "] is not FIPS capable")

/-- Model of `managedInput.IsFIPSCapable`: forwards to the wrapped
source-type input when it implements `v2.FIPSAwareInput`, and reports
`true` when it does not. -/
def managedInput_IsFIPSCapable (innerCap : FIPSCapability) : Bool :=
  match innerCap with
  | none => true
  | some b => b

/-- The `v2.Context` structure handed to inputs, with the external
handles (logger, agent info, canceler, status reporter, metrics registry)
abstracted to opaque values. -/
structure Context where
  Logger : String
  ID : String
  IDWithoutName : String
  Name : String
  Agent : String
  Cancelation : Nat
  StatusReporter : Option String
  MetricsRegistry : Nat
deriving DecidableEq, Repr

/-- Construction of the per-worker context inside the `grp.Go` closure of
`managedInput.Run`: `inpCtxID := ctx.ID + "::" + source.Name()`, a logger
labelled with the source name, the registry created by
`PrepareInputMetrics` (`reg`), and the remaining fields copied from the
refined input-level context. -/
def mkWorkerContext (ctx : Context) (sourceName : String) (reg : Nat) :
    Context :=
  let inpCtxID := ctx.ID ++ "::" ++ sourceName
  let log := ctx.Logger ++ "[input_source=" ++ sourceName ++ "]"
  { ID := inpCtxID
    IDWithoutName := ctx.ID
    Name := ctx.Name
    Agent := ctx.Agent
    Cancelation := ctx.Cancelation
    StatusReporter := ctx.StatusReporter
    MetricsRegistry := reg
    Logger := log }

theorem runWorkers_state (rs : List (Option String)) : ∀ c : CancelState,
    runWorkers c rs =
      { parentCancelled := c.parentCancelled
        cancelCalled := c.cancelCalled || rs.any Option.isSome } := by
  induction rs with
  | nil => intro c; simp [runWorkers]
  | cons r rs ih =>
    intro c
    rw [show runWorkers c (r :: rs) = runWorkers (workerStep c r) rs from rfl, ih]
    cases hr : r.isSome <;>
      simp [workerStep, hr, Bool.or_assoc]

theorem multiErrGroupWait_eq_nil (l : List (Option String))
    (h : ∀ r ∈ l, r = none) : multiErrGroupWait l = [] := by
  unfold multiErrGroupWait
  rw [List.filterMap_eq_nil_iff]
  exact h

theorem multiErrGroupWait_length_pos (l : List (Option String))
    (r : Option String) (hmem : r ∈ l) (hr : r.isSome = true) :
    0 < (multiErrGroupWait l).length := by
  obtain ⟨v, hv⟩ := Option.isSome_iff_exists.mp hr
  have hmemv : v ∈ multiErrGroupWait l := List.mem_filterMap.mpr ⟨r, hmem, hv⟩
  exact List.length_pos.mpr (List.ne_nil_of_mem hmemv)

/-- C1, corrected (the claim's `n` is wrong): when no entry of the batch
is a `*updateOp` the acknowledgment callback performs no commit, and
otherwise it calls `Execute` exactly once, on the highest-index
`*updateOp` entry, with argument `n` equal to the number of
`*updateOp`-tagged entries of the batch — not to the number of confirmed
events (`acked`), which the code ignores. -/
theorem ackHandler_commits_last_op_with_op_count
    (acked : Nat) (priv : List AckEntry) :
    (countOps priv = 0 → newInputACKHandler acked priv = none) ∧
    (∀ j, lastOpIdx priv = some j →
      newInputACKHandler acked priv = some (j, countOps priv)) := by
  constructor
  · intro h
    simp [newInputACKHandler, ackScan_spec, h]
  · intro j hj
    have hne := countOps_ne_zero_of_lastOpIdx_some priv j hj
    simp [newInputACKHandler, ackScan_spec, hj, hne]

/-- Witness for C1's amended theorem at a concrete batch: one
non-`updateOp` entry followed by one `*updateOp` entry. -/
theorem ackHandler_commits_last_op_with_op_count_witness :
    newInputACKHandler 2 [AckEntry.other, AckEntry.op 0] = some (1, 1) := by
  have h := (ackHandler_commits_last_op_with_op_count 2
    [AckEntry.other, AckEntry.op 0]).2 1 (by decide)
  rw [h]
  decide

/-- Counterexample to C1 as stated: in a batch of two confirmed events
whose payloads are one non-`updateOp` value and one `*updateOp`, the
callback calls `Execute(1)` on index 1, not `Execute(2)` as the claim's
"count of confirmed events since the previous scan" (here `acked = 2`)
would require. -/
theorem ackHandler_acked_count_counterexample :
    newInputACKHandler 2 [AckEntry.other, AckEntry.op 0] = some (1, 1) ∧
    ¬ newInputACKHandler 2 [AckEntry.other, AckEntry.op 0] = some (1, 2) := by
  decide

/-- C2: any worker of `managedInput.Run` that gets a non-nil error from
`runSource` calls `cancel()` on the child context shared by all workers,
so after that worker's step the shared child cancellation signal —
derived from the input-level one — reports cancelled to every sibling,
and it stays cancelled for the rest of the run because the flag is
monotone. -/
theorem worker_error_cancels_siblings (parentCancelled : Bool)
    (results : List (Option String)) (r : Option String)
    (hmem : r ∈ results) (hr : r.isSome = true) :
    (runWorkers (deriveChildCancel parentCancelled) results).cancelled = true := by
  have hany : results.any Option.isSome = true :=
    List.any_eq_true.mpr ⟨r, hmem, hr⟩
  rw [runWorkers_state]
  simp [CancelState.cancelled, deriveChildCancel, hany]

/-- Witness for C2: two workers, the second fails, the shared child
signal ends up cancelled even though the input-level signal never fired. -/
theorem worker_error_cancels_siblings_witness :
    (runWorkers (deriveChildCancel false) [none, some "boom"]).cancelled = true :=
  worker_error_cancels_siblings false [none, some "boom"] (some "boom")
    (by simp) rfl

/-- C3: whenever `runSource` gets past `inp.manager.lock` (pipeline
connection and lock acquisition both succeeded), the deferred
`releaseResource(resource)` runs exactly once — on a normal return, on a
fatal error from the source-type `Run`, and on a panic inside it. -/
theorem runSource_releases_lock_exactly_once (stack : String)
    (outcome : RunOutcome) :
    (runSource stack none none outcome).releases = 1 := by
  cases outcome <;> rfl

/-- C4: a panic inside the source-type `Run` or `Test` is recovered at
the worker boundary and converted into the returned non-nil error
`"input panic with: " ++ v ++ "\n" ++ stack`, carrying the panic value
and the stack trace; the model functions return this error instead of
propagating the panic, and it is non-nil like any other fatal return. -/
theorem panic_recovered_as_error (stack v : String) :
    (runSource stack none none (RunOutcome.panics v)).retErr
      = some (panicMessage v stack) ∧
    ((runSource stack none none (RunOutcome.panics v)).retErr).isSome = true ∧
    testSource stack (RunOutcome.panics v) = some (panicMessage v stack) :=
  ⟨rfl, rfl, rfl⟩

/-- C5: `managedInput.Run` joins the results of all workers collected by
`grp.Wait()`: if every worker returned nil it returns nil, and if any
worker returned a non-nil error it returns one error naming the input by
its ID and wrapping the join of every non-nil worker error. -/
theorem run_joins_worker_errors (inputID : String)
    (workerErrs : List (Option String)) :
    ((∀ r ∈ workerErrs, r = none) →
      managedInput_Run inputID workerErrs = none) ∧
    ((∃ r ∈ workerErrs, r.isSome = true) →
      managedInput_Run inputID workerErrs =
        some ("input " ++ inputID ++ " failed: "
          ++ String.intercalate "\n" (workerErrs.filterMap (fun r => r)))) := by
  constructor
  · intro h
    unfold managedInput_Run
    rw [multiErrGroupWait_eq_nil workerErrs h]
    rfl
  · rintro ⟨r, hmem, hr⟩
    have hlen := multiErrGroupWait_length_pos workerErrs r hmem hr
    unfold managedInput_Run
    rw [if_pos hlen]
    rfl

/-- Witness for C5: one failed worker and one clean worker yield the
joined input-level error. -/
theorem run_joins_worker_errors_witness :
    managedInput_Run "inputA" [some "boom", none] =
      some ("input " ++ "inputA" ++ " failed: "
        ++ String.intercalate "\n" ([some "boom", none].filterMap (fun r => r))) :=
  (run_joins_worker_errors "inputA" [some "boom", none]).2
    ⟨some "boom", List.mem_cons_self _ _, rfl⟩

/-- C6: `managedInput.Test` waits for every per-source validation and
returns nil exactly when all of them returned nil; otherwise it returns
one error wrapping the join of all per-source failures, so every failure
is visible. -/
theorem test_joins_validation_errors (testErrs : List (Option String)) :
    (managedInput_Test testErrs = none ↔ ∀ r ∈ testErrs, r = none) ∧
    ((∃ r ∈ testErrs, r.isSome = true) →
      managedInput_Test testErrs =
        some ("input tests failed: "
          ++ String.intercalate "\n" (testErrs.filterMap (fun r => r)))) := by
  constructor
  · constructor
    · intro h
      by_contra hc
      push_neg at hc
      obtain ⟨r, hmem, hr⟩ := hc
      have hsome : r.isSome = true := Option.ne_none_iff_isSome.mp hr
      have hlen := multiErrGroupWait_length_pos testErrs r hmem hsome
      unfold managedInput_Test at h
      rw [if_pos hlen] at h
      exact Option.noConfusion h
    · intro h
      unfold managedInput_Test
      rw [multiErrGroupWait_eq_nil testErrs h]
      rfl
  · rintro ⟨r, hmem, hr⟩
    have hlen := multiErrGroupWait_length_pos testErrs r hmem hr
    unfold managedInput_Test
    rw [if_pos hlen]
    rfl

/-- Witness for C6: one failing validation and one passing one yield the
joined test error, and a run with only nil results yields nil. -/
theorem test_joins_validation_errors_witness :
    managedInput_Test [some "cannot open", none] =
      some ("input tests failed: "
        ++ String.intercalate "\n" ([some "cannot open", none].filterMap (fun r => r))) ∧
    managedInput_Test [none, none] = none :=
  ⟨(test_joins_validation_errors [some "cannot open", none]).2
      ⟨some "cannot open", List.mem_cons_self _ _, rfl⟩,
    (test_joins_validation_errors [none, none]).1.mpr (by simp)⟩

/-- C7: `createSourceID` computes the composite ResourceKey
`{input-type}::{optional-user-id}::{source-name}` — with the user id
segment present exactly when the user id is non-empty — as a pure
function of the manager type, user id and source name, hence
deterministic across invocations. -/
theorem createSourceID_composite (managerType userID sourceName : String) :
    (userID ≠ "" →
      createSourceID managerType userID sourceName
        = managerType ++ "::" ++ userID ++ "::" ++ sourceName) ∧
    (userID = "" →
      createSourceID managerType userID sourceName
        = managerType ++ "::" ++ sourceName) := by
  constructor
  · intro h; simp [createSourceID, h]
  · intro h; simp [createSourceID, h]

/-- Witness for C7 at concrete inputs, with and without a user id. -/
theorem createSourceID_composite_witness :
    createSourceID "filestream" "user-1" "srcA"
      = "filestream" ++ "::" ++ "user-1" ++ "::" ++ "srcA" ∧
    createSourceID "filestream" "" "srcA" = "filestream" ++ "::" ++ "srcA" :=
  ⟨(createSourceID_composite "filestream" "user-1" "srcA").1 (by decide),
    (createSourceID_composite "filestream" "" "srcA").2 rfl⟩

/-- C8: `checkFIPSCapability` succeeds exactly when the input does not
implement `FIPSAwareInput` or reports itself FIPS capable — it fails only
for an input that implements the interface and reports not capable — and
`managedInput.IsFIPSCapable` reports `true` when the wrapped source-type
input does not declare the capability. -/
theorem fips_capability_check (runnerName : String) (cap : FIPSCapability) :
    (checkFIPSCapability runnerName cap = none ↔ cap ≠ some false) ∧
    managedInput_IsFIPSCapable none = true := by
  constructor
  · cases cap with
    | none => simp [checkFIPSCapability]
    | some b => cases b <;> simp [checkFIPSCapability]
  · rfl

/-- C9: whenever a batch contains at least one `*updateOp` entry, the
`last` index computed by the scanning loop of `newInputACKHandler` points
at a `*updateOp` entry (nil and foreign entries are never selected) and
is the highest such index, so the unchecked type assertion
`private[last].(*updateOp)` cannot panic and `Execute` only ever runs on
an `*updateOp` payload. -/
theorem ackHandler_last_is_highest_op (priv : List AckEntry)
    (h : countOps priv ≠ 0) :
    optIsOp priv[(ackScan priv 0 0 0).2]? = true ∧
    ∀ k, optIsOp priv[k]? = true → k ≤ (ackScan priv 0 0 0).2 := by
  obtain ⟨j, hj⟩ := lastOpIdx_isSome_of_countOps priv h
  have hs : (ackScan priv 0 0 0).2 = j := by
    rw [ackScan_spec]
    simp [hj]
  rw [hs]
  exact ⟨lastOpIdx_points_at_op priv j hj, lastOpIdx_is_max priv j hj⟩

/-- Witness for C9: a batch with two `*updateOp` entries interleaved with
nil and foreign entries; the scan's `last` lands on an `*updateOp`. -/
theorem ackHandler_last_is_highest_op_witness :
    optIsOp [AckEntry.op 5, AckEntry.nilPayload, AckEntry.op 7,
      AckEntry.other][(ackScan [AckEntry.op 5, AckEntry.nilPayload,
        AckEntry.op 7, AckEntry.other] 0 0 0).2]? = true :=
  (ackHandler_last_is_highest_op
    [AckEntry.op 5, AckEntry.nilPayload, AckEntry.op 7, AckEntry.other]
    (by decide)).1

/-- C10: the per-worker context built inside `managedInput.Run` has ID
equal to the parent context's ID concatenated with `"::"` and the
source's name, IDWithoutName equal to the parent's original ID, and
Name, Agent and StatusReporter copied unchanged from the parent. -/
theorem worker_context_fields (ctx : Context) (sourceName : String)
    (reg : Nat) :
    (mkWorkerContext ctx sourceName reg).ID = ctx.ID ++ "::" ++ sourceName ∧
    (mkWorkerContext ctx sourceName reg).IDWithoutName = ctx.ID ∧
    (mkWorkerContext ctx sourceName reg).Name = ctx.Name ∧
    (mkWorkerContext ctx sourceName reg).Agent = ctx.Agent ∧
    (mkWorkerContext ctx sourceName reg).StatusReporter = ctx.StatusReporter :=
  ⟨rfl, rfl, rfl, rfl, rfl⟩

end Beats
